import Mathlib

/-!
Verification development for `excel_to_ralf.py`, a converter from a flat
tabular register description (one row per bit-field) to the nested RALF
register-model text.

Shallow embedding conventions:
* A spreadsheet cell is modelled as `Option String`: `none` is an empty
  cell, which pandas reads as the float NaN; `some s` is a string cell.
  (Numeric cells are outside the model; every claim works with strings.)
* `sanitize` models the source's `sanitize` helper (NaN becomes `""`),
  while `pyStr` models a bare Python `str(cell)` call, under which NaN
  renders as the string `"nan"` — the two are deliberately distinct,
  mirroring the source.
* Python exceptions that escape a function are modelled with
  `Except String`; the error string mirrors the exception message.
* `pandas.DataFrame.groupby(..., sort=False)` keeps first-encountered
  group order, appends rows to their group in input order, and — with
  the default `dropna=True` — drops rows whose key (any component, for
  a multi-column key) is NaN.  `groupByOpt` implements exactly that.
-/

/-- One input record.  Fields mirror the spreadsheet columns.  A value of
`none` models an empty cell (NaN after `pandas.read_excel`). -/
structure Row where
  blockName : Option String
  regName : Option String
  regOffset : Option String
  bit : Option String
  fieldName : Option String
  access : Option String
  resetValue : Option String
  description : Option String
  hierarchy : Option String
deriving DecidableEq, Repr

/-- A loaded sheet: the column names present in the file, plus the rows.
`columns` decides schema validation and whether `Hierarchy` handling is
active; a row field of a column not in `columns` is `none` throughout. -/
structure Table where
  columns : List String
  rows : List Row
deriving DecidableEq, Repr

/-- `str(cell)` for a pandas cell: NaN prints as `"nan"`. -/
def pyStr : Option String → String
  | none => "nan"
  | some s => s

/-- The source's `sanitize`: NaN/None becomes `""`, strings unchanged. -/
def sanitize : Option String → String
  | none => ""
  | some s => s

/-- Python `str.strip()` on the character list (whitespace both ends). -/
def trimChars (cs : List Char) : List Char :=
  ((cs.dropWhile Char.isWhitespace).reverse.dropWhile Char.isWhitespace).reverse

/-- Python `str.strip()`. -/
def pyStrip (s : String) : String :=
  String.mk (trimChars s.data)

/-- Python `str.lower()` (ASCII letters; the inputs at stake are ASCII). -/
def pyLower (s : String) : String :=
  String.mk (s.data.map Char.toLower)

/-- Value of one digit character, for bases up to 36; `none` if not
alphanumeric. -/
def digitVal (c : Char) : Option Nat :=
  if c.isDigit then some (c.toNat - 48)
  else if 'a' ≤ c ∧ c ≤ 'z' then some (c.toNat - 97 + 10)
  else if 'A' ≤ c ∧ c ≤ 'Z' then some (c.toNat - 65 + 10)
  else none

/-- Parse a non-empty digit string in the given base; every character must
be a digit of that base. -/
def parseBaseDigits (base : Nat) : List Char → Nat → Option Nat
  | [], _ => none
  | [c], acc =>
      match digitVal c with
      | some d => if d < base then some (acc * base + d) else none
      | none => none
  | c :: c2 :: cs, acc =>
      match digitVal c with
      | some d => if d < base then parseBaseDigits base (c2 :: cs) (acc * base + d) else none
      | none => none

/-- Python `int(s)` (base 10): strip whitespace, optional sign, at least
one decimal digit.  (Underscore digit grouping is not modelled; no input
in this development uses it.) -/
def pythonIntBase10 (s : String) : Option Int :=
  match trimChars s.data with
  | [] => none
  | '+' :: cs => (parseBaseDigits 10 cs 0).map Int.ofNat
  | '-' :: cs => (parseBaseDigits 10 cs 0).map (fun n => -(Int.ofNat n : Int))
  | cs => (parseBaseDigits 10 cs 0).map Int.ofNat

/-- The unsigned part of Python `int(s, 0)`: `0x`/`0b`/`0o` prefixes select
the base; a plain decimal literal may not have a leading zero unless it is
all zeros (`int("010", 0)` raises in Python). -/
def pyUnsignedBase0 : List Char → Option Nat
  | '0' :: c :: cs =>
      if c = 'x' ∨ c = 'X' then parseBaseDigits 16 cs 0
      else if c = 'b' ∨ c = 'B' then parseBaseDigits 2 cs 0
      else if c = 'o' ∨ c = 'O' then parseBaseDigits 8 cs 0
      else if (c :: cs).all (· = '0') then some 0
      else none
  | cs => parseBaseDigits 10 cs 0

/-- Python `int(s, 0)`: strip, optional sign, base chosen by prefix. -/
def pythonIntBase0 (s : String) : Option Int :=
  match trimChars s.data with
  | [] => none
  | '+' :: cs => (pyUnsignedBase0 cs).map Int.ofNat
  | '-' :: cs => (pyUnsignedBase0 cs).map (fun n => -(Int.ofNat n : Int))
  | cs => (pyUnsignedBase0 cs).map Int.ofNat

/-- Split a character list at the first `:` — Python `s.split(":", 1)`.
Only called when a colon is present. -/
def splitFirstColon : List Char → (List Char × List Char)
  | [] => ([], [])
  | c :: cs =>
      if c = ':' then ([], cs)
      else
        let p := splitFirstColon cs
        (c :: p.1, p.2)

/-- `parse_bit_range` from the source: NaN and empty raise `ValueError`
(the caller catches it and skips the field); `"hi:lo"` splits at the first
colon and parses both halves with base-10 `int`; a single value `b` yields
`(b, b)`. -/
def parse_bit_range (v : Option String) : Except String (Int × Int) :=
  match v with
  | none => Except.error "Bit 列为空"
  | some raw =>
      let s := pyStrip raw
      if s = "" then Except.error "Bit 列为空字符串"
      else if s.data.contains ':' then
        let p := splitFirstColon s.data
        match pythonIntBase10 (String.mk p.1), pythonIntBase10 (String.mk p.2) with
        | some hi, some lo => Except.ok (hi, lo)
        | _, _ => Except.error "invalid literal for int() with base 10"
      else
        match pythonIntBase10 s with
        | some b => Except.ok (b, b)
        | none => Except.error "invalid literal for int() with base 10"

/-- `parse_reset_value` from the source: `str(cell).strip()`; empty gives
no reset; otherwise `int(s, 0)`, with any parse failure giving no reset. -/
def parse_reset_value (v : Option String) : Option Int :=
  let s := pyStrip (pyStr v)
  if s = "" then none else pythonIntBase0 s


/-- `Series.ffill`: replace each `none` with the most recent `some` seen
so far (the carry), leaving a leading run of `none` untouched. -/
def ffillOpt (carry : Option String) : List (Option String) → List (Option String)
  | [] => []
  | x :: xs =>
      match x with
      | some v => some v :: ffillOpt (some v) xs
      | none => carry :: ffillOpt carry xs

/-- `df["BlockName"] = df["BlockName"].ffill()`. -/
def fillBlock (rows : List Row) : List Row :=
  List.zipWith (fun r v => { r with blockName := v }) rows
    (ffillOpt none (rows.map Row.blockName))

/-- `df["RegName"] = df["RegName"].ffill()`. -/
def fillReg (rows : List Row) : List Row :=
  List.zipWith (fun r v => { r with regName := v }) rows
    (ffillOpt none (rows.map Row.regName))

/-- `df["RegOffset"] = df["RegOffset"].ffill()`. -/
def fillOff (rows : List Row) : List Row :=
  List.zipWith (fun r v => { r with regOffset := v }) rows
    (ffillOpt none (rows.map Row.regOffset))

/-- `df["Hierarchy"] = df["Hierarchy"].ffill()`. -/
def fillHier (rows : List Row) : List Row :=
  List.zipWith (fun r v => { r with hierarchy := v }) rows
    (ffillOpt none (rows.map Row.hierarchy))

/-- The forward-fill loop of `load_excel`: the three always-present
identifying columns are filled, `Hierarchy` only when the column exists
(`hasH`).  `BlockName`, `RegName`, `RegOffset` pass the source's
`if col in df.columns` test whenever the schema check succeeded. -/
def load_fill (hasH : Bool) (rows : List Row) : List Row :=
  let r3 := fillOff (fillReg (fillBlock rows))
  if hasH then fillHier r3 else r3

/-- The `required` column list of `load_excel`, in source order. -/
def requiredCols : List String :=
  ["BlockName", "RegName", "RegOffset", "Bit", "FieldName", "Access",
   "ResetValue", "Description"]

/-- `[c for c in required if c not in df.columns]`. -/
def missingCols (cols : List String) : List String :=
  requiredCols.filter (fun c => decide (c ∉ cols))

/-- Python `repr` of a list of strings, as an f-string renders it. -/
def pyListRepr (xs : List String) : String :=
  "[" ++ String.intercalate ", " (xs.map (fun s => "\x27" ++ s ++ "\x27")) ++ "]"

/-- `load_excel` minus the `pd.read_excel` I/O call: validate that every
required column is present (raising `ValueError` that names the missing
columns, before touching any row), then forward-fill the sparse
identifying columns. -/
def load_excel (t : Table) : Except String Table :=
  let missing := missingCols t.columns
  if missing ≠ [] then
    Except.error ("Excel 缺少列: " ++ pyListRepr missing)
  else
    Except.ok ⟨t.columns, load_fill (t.columns.contains "Hierarchy") t.rows⟩

/-- Group rows by a key, pandas `groupby(..., sort=False)` style: groups
appear in first-encountered key order, each group collects its rows in
input order, and a row whose key is `none` (NaN, or a NaN component of a
multi-column key) is dropped (`dropna=True`, the pandas default). -/
def addToGroups {α : Type} [DecidableEq α] (k : α) (r : Row) :
    List (α × List Row) → List (α × List Row)
  | [] => [(k, [r])]
  | g :: gs => if g.1 = k then (g.1, g.2 ++ [r]) :: gs else g :: addToGroups k r gs

/-- Fold of `addToGroups` over the rows; see `addToGroups`. -/
def groupByOpt {α : Type} [DecidableEq α] (key : Row → Option α) :
    List Row → List (α × List Row) → List (α × List Row)
  | [], acc => acc
  | r :: rs, acc =>
      groupByOpt key rs
        (match key r with
         | none => acc
         | some k => addToGroups k r acc)

/-- Key of the outer `df.groupby("BlockName", sort=False)`. -/
def blockKey (r : Row) : Option String := r.blockName

/-- Key of `block_df.groupby(["RegName", "RegOffset"], sort=False)`:
pandas drops the row when either component is NaN. -/
def regKey (r : Row) : Option (String × String) :=
  match r.regName, r.regOffset with
  | some n, some o => some (n, o)
  | _, _ => none

/-- Uppercase hexadecimal digits of a natural number (`"0"` for zero). -/
def natHexUpper (n : Nat) : String :=
  String.mk ((Nat.toDigits 16 n).map Char.toUpper)

/-- Python `format(i, "X")`: uppercase hex, a leading minus for negative
values, no `0x`. -/
def intHexUpper (i : Int) : String :=
  if i < 0 then "-" ++ natHexUpper i.natAbs else natHexUpper i.toNat

/-- The register-offset rendering: `int(str(offset).strip(), 0)` with any
failure tolerated as 0, then `format(offset_int, "X")`. -/
def offsetHex (offS : String) : String :=
  intHexUpper ((pythonIntBase0 (pyStrip offS)).getD 0)

/-- Python `x & ((1 << w) - 1)` for `w ≥ 0`: bitwise AND with an all-ones
mask, which on arbitrary-precision two's-complement integers equals the
Euclidean remainder modulo `2 ^ w` (also for negative `x`, e.g.
`-5 & 15 = 11 = -5 mod 16`). -/
def maskToWidth (x : Int) (w : Nat) : Int :=
  x.emod ((2 : Int) ^ w)


/-- One forward-fill step: a present value replaces the carry. -/
def stepFill (carry x : Option String) : Option String :=
  match x with
  | some v => some v
  | none => carry

/-- The last present value of a column segment, starting from `carry`. -/
def lastSomeFrom (carry : Option String) (xs : List (Option String)) :
    Option String :=
  xs.foldl stepFill carry

/-- Spec-side description of forward fill at one position: a present value
stays; an absent value becomes the nearest preceding present value
(`carry` if the whole prefix is absent). -/
def fillSpecAt (carry : Option String) (col : List (Option String)) (i : Nat) :
    Option String :=
  match col[i]? with
  | some (some v) => some v
  | _ => lastSomeFrom carry (col.take i)

/-- Spec-side description of a forward-filled column, position by
position, with nothing before the first row (a leading run of absent
values stays absent). -/
def fillSpec (col : List (Option String)) : List (Option String) :=
  (List.range col.length).map (fillSpecAt none col)

/-- The `WIDTH'hHEX` reset literal; only reached with `width ≥ 0`. -/
def resetLit (width : Int) (rv : Int) : String :=
  toString width ++ "\x27h" ++ natHexUpper (maskToWidth rv width.toNat).toNat

/-- The per-row body of the field loop of `generate_ralf`: zero lines when
the row is skipped (empty `FieldName`, `reserved`, or a `Bit` that raises
`ValueError`), otherwise the field header, `bits`, `access`, an optional
`reset`, and the closer.  `Except.error` models the uncaught `ValueError`
("negative shift count") that Python's `1 << width` raises when
`width < 0` and the row carries a parseable reset value. -/
def fieldLinesE (hasH : Bool) (row : Row) : Except String (List String) :=
  let base_fname := sanitize row.fieldName
  if base_fname = "" then Except.ok []
  else if pyLower (pyStrip base_fname) = "reserved" then Except.ok []
  else
    match parse_bit_range row.bit with
    | Except.error _ => Except.ok []
    | Except.ok (hi, lo) =>
        let width : Int := hi - lo + 1
        let lsb : Int := lo
        let faccess0 := pyStrip (pyStr row.access)
        let faccess1 := pyLower (if faccess0 = "" then "rw" else faccess0)
        let faccess := if faccess1 = "r" then "ro" else faccess1
        let rv := parse_reset_value row.resetValue
        let fname :=
          if hasH then
            let h_val := sanitize row.hierarchy
            if h_val = "" then base_fname else base_fname ++ " (" ++ h_val ++ ")"
          else base_fname
        let emit : Option String → List String := fun reset_str =>
          ["        field " ++ fname ++ " @" ++ toString lsb ++ " \x7b",
           "           bits " ++ toString width ++ ";",
           "           access " ++ faccess ++ ";"]
          ++ (match reset_str with
              | some s => ["           reset " ++ s ++ ";"]
              | none => [])
          ++ ["        \x7d"]
        match rv with
        | none => Except.ok (emit none)
        | some rv_int =>
            if width < 0 then Except.error "negative shift count"
            else Except.ok (emit (some (resetLit width rv_int)))

/-- Concatenation of `fieldLinesE` over the rows of one register group,
propagating an uncaught exception. -/
def regFieldsE (hasH : Bool) : List Row → Except String (List String)
  | [] => Except.ok []
  | r :: rs =>
      match fieldLinesE hasH r with
      | Except.error e => Except.error e
      | Except.ok a =>
          match regFieldsE hasH rs with
          | Except.error e => Except.error e
          | Except.ok b => Except.ok (a ++ b)

/-- One register group: header with name and `@'hHEX` offset, the field
lines, the closer, and the empty separator line the source appends after
every register. -/
def regLinesE (hasH : Bool) (g : (String × String) × List Row) :
    Except String (List String) :=
  match regFieldsE hasH g.2 with
  | Except.error e => Except.error e
  | Except.ok body =>
      Except.ok (("    register " ++ g.1.1 ++ " @\x27h" ++ offsetHex g.1.2 ++ " \x7b")
        :: body ++ ["    \x7d", ""])

/-- Concatenation of `regLinesE` over a block's register groups. -/
def regsLinesE (hasH : Bool) : List ((String × String) × List Row) →
    Except String (List String)
  | [] => Except.ok []
  | g :: gs =>
      match regLinesE hasH g with
      | Except.error e => Except.error e
      | Except.ok a =>
          match regsLinesE hasH gs with
          | Except.error e => Except.error e
          | Except.ok b => Except.ok (a ++ b)

/-- One block: `sanitize(key) or "TOP"` header (the group key is already a
string, so only the empty string falls back to `"TOP"`), the `bytes` line,
the registers, the closing brace.  The source also computes
`hierarchy_macro`/`hierarchy_inst` from the block's first row, but never
uses them; the dead locals are omitted. -/
def blockLinesE (hasH : Bool) (bpw : Nat) (g : String × List Row) :
    Except String (List String) :=
  let block_name := if g.1 = "" then "TOP" else g.1
  match regsLinesE hasH (groupByOpt regKey g.2 []) with
  | Except.error e => Except.error e
  | Except.ok body =>
      Except.ok (("block " ++ block_name ++ " \x7b")
        :: ("  bytes " ++ toString bpw ++ ";") :: body ++ ["\x7d"])

/-- All blocks, with one empty separator line before every block except
the first (the source's `first_block` flag). -/
def blocksLinesE (hasH : Bool) (bpw : Nat) (isFirst : Bool) :
    List (String × List Row) → Except String (List String)
  | [] => Except.ok []
  | g :: gs =>
      match blockLinesE hasH bpw g with
      | Except.error e => Except.error e
      | Except.ok b =>
          match blocksLinesE hasH bpw false gs with
          | Except.error e => Except.error e
          | Except.ok rest =>
              Except.ok ((if isFirst then [] else [""]) ++ b ++ rest)

/-- `generate_ralf`: group the (already normalized) rows by `BlockName`,
emit every block, and join the lines with newlines. -/
def generate_ralf (hasH : Bool) (rows : List Row) (bpw : Nat) :
    Except String String :=
  match blocksLinesE hasH bpw true (groupByOpt blockKey rows []) with
  | Except.error e => Except.error e
  | Except.ok lines => Except.ok (String.intercalate "\n" lines)

/-- The whole run of `main` after `pd.read_excel` and before
`Path.write_text`: load (schema check plus forward-fill), then emit.  An
`Except.error` means the program raised before producing any output text,
so no output file is written. -/
def pipeline (t : Table) (bpw : Nat) : Except String String :=
  match load_excel t with
  | Except.error e => Except.error e
  | Except.ok t2 => generate_ralf (t2.columns.contains "Hierarchy") t2.rows bpw

/-- The eight required columns, used by the concrete tables below. -/
def stdCols : List String := requiredCols

/-- Row 1 of the end-to-end scenario. -/
def rowGpio1 : Row :=
  ⟨some "GPIO", some "CTRL", some "0x10", some "7:0", some "EN", some "rw",
   some "0x01", none, none⟩

/-- Row 2 of the end-to-end scenario: empty `BlockName`, `RegOffset`,
`ResetValue`; `FieldName` is `Reserved`. -/
def rowGpio2 : Row :=
  ⟨none, some "CTRL", none, some "8", some "Reserved", some "r", none, none, none⟩

/-- The two-row end-to-end input table. -/
def tGpio : Table := ⟨stdCols, [rowGpio1, rowGpio2]⟩

/-- The exact text the reference pipeline prints for `tGpio`. -/
def gpioExpected : String :=
  "block GPIO \x7b\n  bytes 4;\n    register CTRL @\x27h10 \x7b\n        field EN @0 \x7b\n           bits 8;\n           access rw;\n           reset 8\x27h1;\n        \x7d\n    \x7d\n\n\x7d"

/-- A row with an inverted bit range (`Bit = "0:2"`, width `-1`) and a
parseable reset value. -/
def rowNegWidth : Row :=
  ⟨some "B", some "R", some "0", some "0:2", some "F", some "rw", some "1",
   none, none⟩

/-- A row with a zero-width bit range (`Bit = "1:2"`) and a parseable
reset value. -/
def rowZeroWidth : Row :=
  ⟨some "B", some "R", some "0", some "1:2", some "F", some "rw", some "5",
   none, none⟩

/-- A row whose `FieldName` is a single space (empty after trimming, but
not empty). -/
def rowSpaceName : Row :=
  ⟨some "B", some "R", some "0", some "0", some " ", some "rw", none, none,
   none⟩

/-- A row whose `Bit` cell is the non-numeric string `"abc"`. -/
def rowAbcBit : Row :=
  ⟨some "B", some "R", some "0", some "abc", some "F", some "rw", none, none,
   none⟩

/-- A row whose `Bit` cell is the empty string. -/
def rowEmptyBit : Row :=
  ⟨some "B", some "R", some "0", some "", some "F", some "rw", none, none,
   none⟩

/-- A leading row whose `BlockName` cell is empty (NaN): forward-fill has
nothing to carry, so it stays NaN into the grouping. -/
def rowNanBlock : Row :=
  ⟨none, some "R", some "0", some "0", some "F", some "rw", none, none, none⟩

/-- A row whose `BlockName` is the empty *string* (not NaN). -/
def rowEmptyStrBlock : Row :=
  ⟨some "", some "R", some "0", some "0", some "F", some "", none, none, none⟩

/-- A second, named block following `rowEmptyStrBlock`. -/
def rowNamedBlock : Row :=
  ⟨some "B", some "S", some "4", some "1", some "G", some "r", none, none,
   none⟩

/-- A row with field name `EN`, access `rw`, and the given `Bit` and
`ResetValue` cells. -/
def mkRowC8 (bitS rvS : String) : Row :=
  ⟨some "B", some "R", some "0", some bitS, some "EN", some "rw", some rvS,
   none, none⟩

/-- A register-group row that is skipped (`FieldName = "Reserved"`). -/
def rowReservedOnly : Row :=
  ⟨some "B", some "R", some "0x8", some "8", some "Reserved", some "r", none,
   none, none⟩

/-- A row whose `FieldName` is the empty string. -/
def rowEmptyName : Row :=
  ⟨some "B", some "R", some "0", some "0", some "", some "rw", none, none, none⟩

/-- A table whose schema lacks the `Access` column. -/
def tNoAccess : Table :=
  ⟨["BlockName", "RegName", "RegOffset", "Bit", "FieldName", "ResetValue",
    "Description"],
   [rowGpio1]⟩

example : parse_bit_range (some "7:0") = Except.ok (7, 0) := by rfl
example : parse_bit_range (some "3") = Except.ok (3, 3) := by rfl
example : parse_reset_value (some "0x1F") = some 31 := by decide
example : parse_reset_value (some "-5") = some (-5) := by decide
example : parse_reset_value (some "  ") = none := by decide
example : pythonIntBase0 "010" = none := by decide
example : pythonIntBase0 "00" = some 0 := by decide

example : maskToWidth (-5) 4 = 11 := by decide
example : maskToWidth 31 4 = 15 := by decide
example : maskToWidth 5 0 = 0 := by decide

lemma ffillOpt_cons (carry x : Option String) (xs : List (Option String)) :
    ffillOpt carry (x :: xs) = stepFill carry x :: ffillOpt (stepFill carry x) xs := by
  cases x <;> rfl

lemma ffillOpt_length (xs : List (Option String)) :
    ∀ c, (ffillOpt c xs).length = xs.length := by
  induction xs with
  | nil => intro c; rfl
  | cons x xs ih => intro c; cases x <;> simp [ffillOpt, ih]

lemma fillSpecAt_zero (carry x : Option String) (xs : List (Option String)) :
    fillSpecAt carry (x :: xs) 0 = stepFill carry x := by
  cases x <;> simp [fillSpecAt, lastSomeFrom, stepFill]

lemma fillSpecAt_succ (carry x : Option String) (xs : List (Option String))
    (i : Nat) :
    fillSpecAt carry (x :: xs) (i + 1) = fillSpecAt (stepFill carry x) xs i := by
  unfold fillSpecAt
  have h1 : (x :: xs)[i + 1]? = xs[i]? := by simp
  have h2 : (x :: xs).take (i + 1) = x :: xs.take i := by simp [List.take_succ_cons]
  rw [h1, h2]
  have h3 : lastSomeFrom carry (x :: xs.take i) =
      lastSomeFrom (stepFill carry x) (xs.take i) := by
    simp [lastSomeFrom, List.foldl_cons]
  rw [h3]

/-- The implementation's forward fill agrees with the positionwise spec,
for any starting carry. -/
lemma ffillOpt_eq_spec (col : List (Option String)) :
    ∀ carry, ffillOpt carry col = (List.range col.length).map (fillSpecAt carry col) := by
  induction col with
  | nil => intro carry; rfl
  | cons x xs ih =>
      intro carry
      rw [ffillOpt_cons]
      have hlen : (x :: xs).length = xs.length + 1 := rfl
      rw [hlen, List.range_succ_eq_map, List.map_cons, List.map_map]
      refine congrArg₂ _ (fillSpecAt_zero carry x xs).symm ?_
      rw [ih (stepFill carry x)]
      refine List.map_congr_left ?_
      intro i _
      simp only [Function.comp_apply]
      exact (fillSpecAt_succ carry x xs i).symm

lemma zipWith_map_set {f : Row → Option String → Row} {g : Row → Option String}
    (hfg : ∀ r v, g (f r v) = v) :
    ∀ (rows : List Row) (vals : List (Option String)),
      rows.length = vals.length → (List.zipWith f rows vals).map g = vals := by
  intro rows
  induction rows with
  | nil =>
      intro vals h
      cases vals with
      | nil => rfl
      | cons v vs => simp at h
  | cons r rs ih =>
      intro vals h
      cases vals with
      | nil => simp at h
      | cons v vs =>
          simp only [List.zipWith_cons_cons, List.map_cons, hfg]
          rw [ih vs (by simpa using h)]

lemma zipWith_map_keep {f : Row → Option String → Row} {g : Row → Option String}
    (hfg : ∀ r v, g (f r v) = g r) :
    ∀ (rows : List Row) (vals : List (Option String)),
      rows.length = vals.length → (List.zipWith f rows vals).map g = rows.map g := by
  intro rows
  induction rows with
  | nil =>
      intro vals h
      cases vals with
      | nil => rfl
      | cons v vs => simp at h
  | cons r rs ih =>
      intro vals h
      cases vals with
      | nil => simp at h
      | cons v vs =>
          simp only [List.zipWith_cons_cons, List.map_cons, hfg]
          rw [ih vs (by simpa using h)]

/-- C5: the row normalizer forward-fills exactly the columns `BlockName`,
`RegName`, `RegOffset` and (only when present) `Hierarchy` — each
position keeps a present value and otherwise receives the nearest
preceding present value of the same column, independently per column in
input order, with a leading absent run staying absent — while `Bit`,
`FieldName`, `Access`, `ResetValue`, `Description` pass through
unchanged. -/
theorem C5_row_normalizer_forward_fill (hasH : Bool) (rows : List Row) :
    (load_fill hasH rows).map Row.blockName = fillSpec (rows.map Row.blockName) ∧
    (load_fill hasH rows).map Row.regName = fillSpec (rows.map Row.regName) ∧
    (load_fill hasH rows).map Row.regOffset = fillSpec (rows.map Row.regOffset) ∧
    (load_fill hasH rows).map Row.hierarchy =
      (if hasH then fillSpec (rows.map Row.hierarchy) else rows.map Row.hierarchy) ∧
    (load_fill hasH rows).map Row.bit = rows.map Row.bit ∧
    (load_fill hasH rows).map Row.fieldName = rows.map Row.fieldName ∧
    (load_fill hasH rows).map Row.access = rows.map Row.access ∧
    (load_fill hasH rows).map Row.resetValue = rows.map Row.resetValue ∧
    (load_fill hasH rows).map Row.description = rows.map Row.description := by
  have kB : ∀ g : Row → Option String, (∀ r v, g { r with blockName := v } = g r) →
      (fillBlock rows).map g = rows.map g :=
    fun g hg => zipWith_map_keep hg rows _ (by simp [ffillOpt_length])
  have kR : ∀ g : Row → Option String, (∀ r v, g { r with regName := v } = g r) →
      (fillReg (fillBlock rows)).map g = (fillBlock rows).map g :=
    fun g hg => zipWith_map_keep hg _ _ (by simp [ffillOpt_length])
  have kO : ∀ g : Row → Option String, (∀ r v, g { r with regOffset := v } = g r) →
      (fillOff (fillReg (fillBlock rows))).map g = (fillReg (fillBlock rows)).map g :=
    fun g hg => zipWith_map_keep hg _ _ (by simp [ffillOpt_length])
  have kH : ∀ g : Row → Option String, (∀ r v, g { r with hierarchy := v } = g r) →
      (fillHier (fillOff (fillReg (fillBlock rows)))).map g =
        (fillOff (fillReg (fillBlock rows))).map g :=
    fun g hg => zipWith_map_keep hg _ _ (by simp [ffillOpt_length])
  have sB : (fillBlock rows).map Row.blockName = ffillOpt none (rows.map Row.blockName) :=
    zipWith_map_set (fun _ _ => rfl) rows _ (by simp [ffillOpt_length])
  have sR : (fillReg (fillBlock rows)).map Row.regName =
      ffillOpt none ((fillBlock rows).map Row.regName) :=
    zipWith_map_set (fun _ _ => rfl) _ _ (by simp [ffillOpt_length])
  have sO : (fillOff (fillReg (fillBlock rows))).map Row.regOffset =
      ffillOpt none ((fillReg (fillBlock rows)).map Row.regOffset) :=
    zipWith_map_set (fun _ _ => rfl) _ _ (by simp [ffillOpt_length])
  have sH : (fillHier (fillOff (fillReg (fillBlock rows)))).map Row.hierarchy =
      ffillOpt none ((fillOff (fillReg (fillBlock rows))).map Row.hierarchy) :=
    zipWith_map_set (fun _ _ => rfl) _ _ (by simp [ffillOpt_length])
  have mB : (fillOff (fillReg (fillBlock rows))).map Row.blockName =
      fillSpec (rows.map Row.blockName) := by
    rw [kO Row.blockName (fun _ _ => rfl), kR Row.blockName (fun _ _ => rfl), sB,
      ffillOpt_eq_spec (rows.map Row.blockName) none]
    rfl
  have mR : (fillOff (fillReg (fillBlock rows))).map Row.regName =
      fillSpec (rows.map Row.regName) := by
    rw [kO Row.regName (fun _ _ => rfl), sR, kB Row.regName (fun _ _ => rfl),
      ffillOpt_eq_spec (rows.map Row.regName) none]
    rfl
  have mO : (fillOff (fillReg (fillBlock rows))).map Row.regOffset =
      fillSpec (rows.map Row.regOffset) := by
    rw [sO, kR Row.regOffset (fun _ _ => rfl), kB Row.regOffset (fun _ _ => rfl),
      ffillOpt_eq_spec (rows.map Row.regOffset) none]
    rfl
  have mKeep : ∀ g : Row → Option String,
      (∀ r v, g { r with blockName := v } = g r) →
      (∀ r v, g { r with regName := v } = g r) →
      (∀ r v, g { r with regOffset := v } = g r) →
      (fillOff (fillReg (fillBlock rows))).map g = rows.map g := by
    intro g h1 h2 h3
    rw [kO g h3, kR g h2, kB g h1]
  cases hasH with
  | true =>
      refine ⟨?_, ?_, ?_, ?_, ?_, ?_, ?_, ?_, ?_⟩ <;>
        simp only [load_fill, if_true, if_pos]
      · rw [kH Row.blockName (fun _ _ => rfl)]; exact mB
      · rw [kH Row.regName (fun _ _ => rfl)]; exact mR
      · rw [kH Row.regOffset (fun _ _ => rfl)]; exact mO
      · rw [sH, mKeep Row.hierarchy (fun _ _ => rfl) (fun _ _ => rfl) (fun _ _ => rfl),
          ffillOpt_eq_spec (rows.map Row.hierarchy) none]
        rfl
      · rw [kH Row.bit (fun _ _ => rfl)]
        exact mKeep Row.bit (fun _ _ => rfl) (fun _ _ => rfl) (fun _ _ => rfl)
      · rw [kH Row.fieldName (fun _ _ => rfl)]
        exact mKeep Row.fieldName (fun _ _ => rfl) (fun _ _ => rfl) (fun _ _ => rfl)
      · rw [kH Row.access (fun _ _ => rfl)]
        exact mKeep Row.access (fun _ _ => rfl) (fun _ _ => rfl) (fun _ _ => rfl)
      · rw [kH Row.resetValue (fun _ _ => rfl)]
        exact mKeep Row.resetValue (fun _ _ => rfl) (fun _ _ => rfl) (fun _ _ => rfl)
      · rw [kH Row.description (fun _ _ => rfl)]
        exact mKeep Row.description (fun _ _ => rfl) (fun _ _ => rfl) (fun _ _ => rfl)
  | false =>
      refine ⟨?_, ?_, ?_, ?_, ?_, ?_, ?_, ?_, ?_⟩ <;>
        simp only [load_fill, if_false]
      · exact mB
      · exact mR
      · exact mO
      · exact mKeep Row.hierarchy (fun _ _ => rfl) (fun _ _ => rfl) (fun _ _ => rfl)
      · exact mKeep Row.bit (fun _ _ => rfl) (fun _ _ => rfl) (fun _ _ => rfl)
      · exact mKeep Row.fieldName (fun _ _ => rfl) (fun _ _ => rfl) (fun _ _ => rfl)
      · exact mKeep Row.access (fun _ _ => rfl) (fun _ _ => rfl) (fun _ _ => rfl)
      · exact mKeep Row.resetValue (fun _ _ => rfl) (fun _ _ => rfl) (fun _ _ => rfl)
      · exact mKeep Row.description (fun _ _ => rfl) (fun _ _ => rfl) (fun _ _ => rfl)

/-- C1: the two-row end-to-end input (`GPIO/CTRL/0x10/7:0/EN/rw/0x01`
followed by a sparse `Reserved` row) produces exactly one block `GPIO`
with one register `CTRL @'h10` holding the single field `EN @0` with
`bits 8; access rw; reset 8'h1;` — byte-for-byte the expected text, so
the second row leaves no visible trace. -/
theorem C1_end_to_end_pipeline : pipeline tGpio 4 = Except.ok gpioExpected := by
  rfl

/-- C2: the reset-mask computation is *not* guarded.  With width `-1`
(`Bit = "0:2"`) and a parseable reset, the pipeline raises the
negative-shift `ValueError` instead of emitting the field without a
reset; and with width `0` (`Bit = "1:2"`) a reset declaration `0'h0` is
still emitted rather than being treated as "no reset". -/
theorem C2_unguarded_reset_mask :
    pipeline ⟨stdCols, [rowNegWidth]⟩ 4 = Except.error "negative shift count" ∧
    fieldLinesE false rowZeroWidth =
      Except.ok ["        field F @2 \x7b", "           bits 0;",
        "           access rw;", "           reset 0\x27h0;", "        \x7d"] := by
  exact ⟨by rfl, by rfl⟩

/-- C3 counterexample: a `FieldName` consisting of a single space is
*not* skipped — the emptiness test uses the untrimmed name — so the row
produces a field (named by the raw whitespace), refuting "empty after
trimming produces no Field". -/
theorem C3_whitespace_name_counterexample :
    fieldLinesE false rowSpaceName =
      Except.ok ["        field   @0 \x7b", "           bits 1;",
        "           access rw;", "        \x7d"] ∧
    fieldLinesE false rowSpaceName ≠ Except.ok [] := by
  have h1 : fieldLinesE false rowSpaceName =
      Except.ok ["        field   @0 \x7b", "           bits 1;",
        "           access rw;", "        \x7d"] := by rfl
  refine ⟨h1, ?_⟩
  intro h
  rw [h1] at h
  exact List.cons_ne_nil _ _ (Except.ok.inj h)

/-- C6: the bit-range decoder sends `"7:0"` to `(7, 0)` and `"3"` to
`(3, 3)`; empty or non-numeric input (`""`, `"abc"`, NaN) raises a
`ValueError` that the field loop absorbs by omitting the field, and the
whole pipeline still succeeds on such a row. -/
theorem C6_bit_range_decode :
    parse_bit_range (some "7:0") = Except.ok (7, 0) ∧
    parse_bit_range (some "3") = Except.ok (3, 3) ∧
    parse_bit_range (some "") = Except.error "Bit 列为空字符串" ∧
    parse_bit_range (some "abc") =
      Except.error "invalid literal for int() with base 10" ∧
    parse_bit_range none = Except.error "Bit 列为空" ∧
    fieldLinesE false rowAbcBit = Except.ok [] ∧
    fieldLinesE false rowEmptyBit = Except.ok [] ∧
    pipeline ⟨stdCols, [rowAbcBit]⟩ 4 =
      Except.ok "block B \x7b\n  bytes 4;\n    register R @\x27h0 \x7b\n    \x7d\n\n\x7d" := by
  exact ⟨by rfl, by rfl, by rfl, by rfl, by rfl, by rfl, by rfl, by rfl⟩

/-- C7 counterexample: the reset-value decoder is not limited to
non-negative integers — `"-5"` parses to the negative integer `-5`. -/
theorem C7_negative_reset_counterexample :
    parse_reset_value (some "-5") = some (-5) ∧ ((-5 : Int) < 0) := by
  exact ⟨by decide, by decide⟩

/-- C7 amended: the decoder is total (never raises): empty or
whitespace-only input and NaN give no reset, `0x`/`0b`/`0o`/decimal
prefixes are honoured, any parse failure gives no reset silently — but
the returned integer may be negative (`"-5"`). -/
theorem C7_reset_decoder_amended :
    parse_reset_value (some "") = none ∧
    parse_reset_value (some " \t ") = none ∧
    parse_reset_value none = none ∧
    parse_reset_value (some "0x1F") = some 31 ∧
    parse_reset_value (some "0b101") = some 5 ∧
    parse_reset_value (some "0o17") = some 15 ∧
    parse_reset_value (some "42") = some 42 ∧
    parse_reset_value (some "abc") = none ∧
    parse_reset_value (some "-5") = some (-5) := by
  exact ⟨by decide, by decide, by decide, by decide, by decide, by decide,
    by decide, by decide, by decide⟩

/-- C9 counterexample: a row whose `BlockName` is still NaN after
forward-fill is dropped by `groupby` (pandas `dropna=True` default)
instead of being grouped into a `TOP` block — the output is empty, with
no `TOP` block anywhere. -/
theorem C9_nan_block_dropped :
    pipeline ⟨stdCols, [rowNanBlock]⟩ 4 = Except.ok "" := by
  rfl

/-- C8: for a field whose bit range decodes to `(hi, lo)` with positive
width and whose reset cell parses to `r`, the emitted reset declaration
is `r` masked to the field's width — bitwise AND with the all-ones mask
`(1 <<< width) - 1`, i.e. the remainder of `r` modulo `2 ^ width` —
rendered as the width-qualified uppercase hexadecimal literal
`width'hHEX`. -/
theorem C8_reset_mask_format (bitS rvS : String) (hi lo r : Int)
    (hb : parse_bit_range (some bitS) = Except.ok (hi, lo))
    (hw : 0 < hi - lo + 1)
    (hr : parse_reset_value (some rvS) = some r) :
    fieldLinesE false (mkRowC8 bitS rvS) =
      Except.ok ["        field EN @" ++ toString lo ++ " \x7b",
        "           bits " ++ toString (hi - lo + 1) ++ ";",
        "           access rw;",
        "           reset " ++ toString (hi - lo + 1) ++ "\x27h" ++
          natHexUpper ((r.emod ((2 : Int) ^ (hi - lo + 1).toNat)).toNat) ++ ";",
        "        \x7d"] := by
  unfold fieldLinesE
  simp only [mkRowC8, sanitize]
  rw [if_neg (show ¬ ("EN" : String) = "" by decide)]
  rw [if_neg (show ¬ pyLower (pyStrip "EN") = "reserved" by decide)]
  rw [hb]
  simp only [hr]
  rw [if_neg (show ¬ (hi - lo + 1 < (0 : Int)) by omega)]
  rfl

/-- Witness for `C8_reset_mask_format`: width 4 with `ResetValue "0x1F"`
yields exactly `reset 4'hF;`. -/
theorem C8_reset_mask_format_witness :
    fieldLinesE false (mkRowC8 "3:0" "0x1F") =
      Except.ok ["        field EN @0 \x7b", "           bits 4;",
        "           access rw;", "           reset 4\x27hF;", "        \x7d"] := by
  have h := C8_reset_mask_format "3:0" "0x1F" 3 0 31 (by rfl) (by decide) (by rfl)
  rw [h]
  rfl

lemma regFieldsE_all_skip (hasH : Bool) (rs : List Row)
    (h : ∀ r ∈ rs, fieldLinesE hasH r = Except.ok []) :
    regFieldsE hasH rs = Except.ok [] := by
  induction rs with
  | nil => rfl
  | cons r rs ih =>
      have h1 := h r (List.mem_cons_self r rs)
      have h2 : ∀ x ∈ rs, fieldLinesE hasH x = Except.ok [] :=
        fun x hx => h x (List.mem_cons_of_mem r hx)
      simp [regFieldsE, h1, ih h2]

/-- C10: a register group emits its header (name plus hexadecimal
offset) and its closing marker even when every row of the group is
skipped — the register appears with an empty body. -/
theorem C10_empty_register_still_emitted (hasH : Bool) (nameS offS : String)
    (rs : List Row) (h : ∀ r ∈ rs, fieldLinesE hasH r = Except.ok []) :
    regLinesE hasH ((nameS, offS), rs) =
      Except.ok ["    register " ++ nameS ++ " @\x27h" ++ offsetHex offS ++ " \x7b",
        "    \x7d", ""] := by
  simp [regLinesE, regFieldsE_all_skip hasH rs h]

/-- Witness for `C10_empty_register_still_emitted` at a register whose
only row is `Reserved`. -/
theorem C10_empty_register_still_emitted_witness :
    (∀ r ∈ [rowReservedOnly], fieldLinesE false r = Except.ok []) ∧
    regLinesE false (("R", "0x8"), [rowReservedOnly]) =
      Except.ok ["    register R @\x27h8 \x7b", "    \x7d", ""] := by
  have hall : ∀ r ∈ [rowReservedOnly], fieldLinesE false r = Except.ok [] := by
    intro r hr
    rw [List.mem_singleton] at hr
    subst hr
    rfl
  refine ⟨hall, ?_⟩
  have h := C10_empty_register_still_emitted false "R" "0x8" [rowReservedOnly] hall
  rw [h]
  rfl

/-- C3 amended: a row whose `FieldName` is absent or exactly the empty
string produces no Field and no error.  (A whitespace-only name is not
skipped: the source tests the untrimmed name — see the counterexample.) -/
theorem C3_empty_name_skipped (hasH : Bool) (r : Row)
    (h : sanitize r.fieldName = "") : fieldLinesE hasH r = Except.ok [] := by
  unfold fieldLinesE
  rw [h]
  simp

/-- Witness for `C3_empty_name_skipped` at a concrete row. -/
theorem C3_empty_name_skipped_witness :
    sanitize rowEmptyName.fieldName = "" ∧
    fieldLinesE false rowEmptyName = Except.ok [] :=
  ⟨rfl, C3_empty_name_skipped false rowEmptyName rfl⟩

/-- C4: when at least one required column is missing, loading fails with
an error naming exactly the missing columns, and the pipeline yields that
error whatever the rows are — no row is processed and no output text is
produced. -/
theorem C4_missing_columns_abort (t : Table) (bpw : Nat)
    (h : missingCols t.columns ≠ []) :
    load_excel t =
      Except.error ("Excel 缺少列: " ++ pyListRepr (missingCols t.columns)) ∧
    (∀ c, c ∈ requiredCols → c ∉ t.columns → c ∈ missingCols t.columns) ∧
    (∀ c, c ∈ missingCols t.columns → c ∈ requiredCols ∧ c ∉ t.columns) ∧
    (∀ rows2 : List Row, pipeline ⟨t.columns, rows2⟩ bpw =
      Except.error ("Excel 缺少列: " ++ pyListRepr (missingCols t.columns))) := by
  refine ⟨?_, ?_, ?_, ?_⟩
  · simp [load_excel, h]
  · intro c hc hnc
    simp only [missingCols, List.mem_filter, decide_eq_true_eq]
    exact ⟨hc, hnc⟩
  · intro c hc
    simp only [missingCols, List.mem_filter, decide_eq_true_eq] at hc
    exact hc
  · intro rows2
    simp [pipeline, load_excel, h]

/-- Witness for `C4_missing_columns_abort` at a concrete table. -/
theorem C4_missing_columns_abort_witness :
    missingCols tNoAccess.columns = ["Access"] ∧
    pipeline tNoAccess 4 = Except.error "Excel 缺少列: [\x27Access\x27]" := by
  refine ⟨by decide, ?_⟩
  have h := (C4_missing_columns_abort tNoAccess 4 (by decide)).2.2.2 tNoAccess.rows
  rw [show (⟨tNoAccess.columns, tNoAccess.rows⟩ : Table) = tNoAccess from rfl] at h
  rw [h]
  rfl

set_option maxRecDepth 20000 in
/-- C9 amended: a row whose `BlockName` is the empty *string* after
forward-fill is grouped into a block emitted as `TOP`, and blocks appear
in first-encountered order of distinct `BlockName` values; rows whose
`BlockName` is absent (NaN) after forward-fill are dropped entirely. -/
theorem C9_empty_string_block_top :
    pipeline ⟨stdCols, [rowEmptyStrBlock, rowNamedBlock]⟩ 4 =
      Except.ok ("block TOP \x7b\n  bytes 4;\n    register R @\x27h0 \x7b\n        field F @0 \x7b\n           bits 1;\n           access rw;\n        \x7d\n    \x7d\n\n\x7d\n\nblock B \x7b\n  bytes 4;\n    register S @\x27h4 \x7b\n        field G @1 \x7b\n           bits 1;\n           access ro;\n        \x7d\n    \x7d\n\n\x7d") := by
  rfl

